import Mathlib

/-!
Verification of `single-node/convert_raw_to_hdf5.py`: a shallow embedding of
the ETL script that converts Decathlon Nifti volumes into one HDF5 container,
together with theorems settling the specified properties.

Conventions of the embedding:
* Python integers are `Nat` (all quantities involved are nonnegative);
  Python `max(a - b, 0)` on nonnegative ints is `Nat` truncated subtraction.
* The PRNG (`np.random.seed(816); np.random.random(numFiles)`) is abstracted
  as a function `draws : Nat -> Rat` giving the uniform draw of each index;
  the split properties hold for every such function, so bit-level PRNG
  fidelity is not needed.
* Float arrays are modelled over `Rat` where the code only compares or moves
  values, and over `Real` where the code does analysis (mean/std).
* The HDF5 file is an explicit state value; h5py calls become functions on it;
  Python exceptions (`KeyError`, `NameError`) become `Except` errors.
-/

/-! ## Splitter (script lines 293-300)

`np.random.seed(816)`, `idxList = np.arange(numFiles)`,
`randomList = np.random.random(numFiles)`,
`trainList = idxList[randomList < args.split]`,
`validateList = idxList[randomList >= args.split]`.

Boolean-mask indexing of `np.arange(numFiles)` keeps exactly the indices
whose mask entry is true, in increasing order: it is `List.filter` over
`List.range numFiles`. -/

/-- `trainList = idxList[randomList < split]`: the indices in
`[0, numFiles)` whose uniform draw is strictly below the split ratio. -/
def trainList (numFiles : Nat) (draws : Nat → Rat) (split : Rat) : List Nat :=
  (List.range numFiles).filter (fun i => draws i < split)

/-- `validateList = idxList[randomList >= split]`: the indices in
`[0, numFiles)` whose uniform draw is at least the split ratio. -/
def validateList (numFiles : Nat) (draws : Nat → Rat) (split : Rat) : List Nat :=
  (List.range numFiles).filter (fun i => split ≤ draws i)

/-! ## Center crop (`crop_center`, script lines 53-78)

`startx = max(x//2 - cropx//2, 0)`, `endx = min(startx + cropx, x)` per
spatial axis; the slice `img[startx:endx, ...]` keeps indices
`startx <= i < endx`; the channel axis of a 4D array is left whole (`:`). -/

/-- Start of the crop window along one axis:
`max(x//2 - crop//2, 0)` — `Nat` subtraction is exactly the
max-with-zero of the Python expression on nonnegative ints. -/
def cropStart (crop x : Nat) : Nat := x / 2 - crop / 2

/-- End of the crop window along one axis: `min(start + crop, x)`. -/
def cropEnd (crop x : Nat) : Nat := min (cropStart crop x + crop) x

/-- Length of the crop window along one axis. -/
def cropLen (crop x : Nat) : Nat := cropEnd crop x - cropStart crop x

/-- A 4D array (image volume, X × Y × Z × channel): a shape together with a
total indexing function (entries outside the shape are junk that every
operation maps identically). -/
structure Arr4 (α : Type) where
  nx : Nat
  ny : Nat
  nz : Nat
  nc : Nat
  dat : Nat → Nat → Nat → Nat → α

/-- A 3D array (mask volume, X × Y × Z). -/
structure Arr3 (α : Type) where
  nx : Nat
  ny : Nat
  nz : Nat
  dat : Nat → Nat → Nat → α

/-- `crop_center` on a 4D array: crops the three spatial axes to the windows
`[cropStart, cropEnd)` and keeps the channel axis whole
(`img[startx:endx, starty:endy, startz:endz, :]`). -/
def crop_center4 (img : Arr4 α) (cropx cropy cropz : Nat) : Arr4 α :=
  { nx := cropLen cropx img.nx
    ny := cropLen cropy img.ny
    nz := cropLen cropz img.nz
    nc := img.nc
    dat := fun i j k l =>
      img.dat (cropStart cropx img.nx + i) (cropStart cropy img.ny + j)
        (cropStart cropz img.nz + k) l }

/-- `crop_center` on a 3D array
(`img[startx:endx, starty:endy, startz:endz]`). -/
def crop_center3 (img : Arr3 α) (cropx cropy cropz : Nat) : Arr3 α :=
  { nx := cropLen cropx img.nx
    ny := cropLen cropy img.ny
    nz := cropLen cropz img.nz
    dat := fun i j k =>
      img.dat (cropStart cropx img.nx + i) (cropStart cropy img.ny + j)
        (cropStart cropz img.nz + k) }

/-! ## Mask binarization (script line 192)

`msk[msk > 1] = 1`: every voxel strictly greater than 1 is set to 1, all
others are left as they are.  Decathlon label volumes hold nonnegative
integer class labels, so voxels are `Nat`. -/

/-- Effect of `msk[msk > 1] = 1` on one voxel. -/
def binarizeVoxel (v : Nat) : Nat := if 1 < v then 1 else v

/-- Effect of `msk[msk > 1] = 1` on a whole mask volume. -/
def binarizeMask (m : Arr3 Nat) : Arr3 Nat :=
  { m with dat := fun i j k => binarizeVoxel (m.dat i j k) }

/-! ## Growable HDF5 dataset (script lines 139-150, 168-179, 196-207, 223-234)

A numeric dataset is modelled by its current leading-dimension size and a
total row function (one `α` value per row index; rows beyond `size` are
junk).  `resize(row + num_rows, axis=0)` changes `size`;
`dset[row:(row+num_rows), :] = img` overwrites exactly the rows in
`[row, row + num_rows)`. -/

/-- A growable dataset: current row count and row contents. -/
structure HDataset (α : Type) where
  size : Nat
  dat : Nat → α

/-- `dset.resize(n, axis=0)`: rows keep their values, only the size changes. -/
def HDataset.resize (d : HDataset α) (n : Nat) : HDataset α :=
  { d with size := n }

/-- `dset[start:(start+len(img)), :] = img`: overwrite rows
`[start, start + img.length)` with `img`, leave every other row alone. -/
def HDataset.writeRange [Inhabited α] (d : HDataset α) (start : Nat)
    (img : List α) : HDataset α :=
  { d with dat := fun i =>
      if start ≤ i ∧ i < start + img.length then img.getD (i - start) default
      else d.dat i }

/-- The `else` branch of each write loop (e.g. lines 147-150):
`row = dset.shape[0]; dset.resize(row + num_rows, axis=0);
dset[row:(row+num_rows), :] = img`. -/
def subsequentWrite [Inhabited α] (d : HDataset α) (img : List α) :
    HDataset α :=
  ((d.resize (d.size + img.length)).writeRange d.size img)

/-- The rows currently stored in a dataset, in order. -/
def HDataset.toList (d : HDataset α) : List α :=
  (List.range d.size).map d.dat

/-- One full write loop of `convert_raw_data_to_hdf5` (e.g. lines 128-150):
`first = True; for idx in idxs: ... if first: create dataset holding
`vol idx`; else: append `vol idx``.  Creating from the empty fresh file is
the same state change as appending to an empty dataset, so the loop is a
fold of `subsequentWrite` from the empty dataset. -/
def writeLoopDS [Inhabited α] (idxs : List Nat) (vol : Nat → List α) :
    HDataset α :=
  idxs.foldl (fun d idx => subsequentWrite d (vol idx)) ⟨0, fun _ => default⟩

/-! ## The HDF5 file and `convert_raw_data_to_hdf5` (script lines 98-237)

For the whole-run claims only the names, row counts and string contents of
the file entries matter, so this view of the file tracks those.  A
variable-length-string dataset (`create_dataset(name, (n,), dtype=dt)`)
starts with every cell unwritten (`none`).  `hdf_file["x"]` on a missing
name raises `KeyError`; an uncaught exception aborts the Python process. -/

/-- One entry of the HDF5 file: a string-capable metadata dataset of the
given shape with per-cell contents, or a numeric dataset with its current
row count. -/
inductive H5Entry where
  | strDataset (capacity : Nat) (contents : List (Option String))
  | arrDataset (rows : Nat)
deriving DecidableEq, Repr

/-- Errors the script can raise while writing the file. -/
inductive H5Err where
  | keyError (name : String)
deriving DecidableEq, Repr

/-- The open HDF5 file: its named entries in creation order, and the
`(dataset, attribute)` pairs written so far. -/
structure H5File where
  entries : List (String × H5Entry)
  attrs : List (String × String)
deriving DecidableEq, Repr

/-- `hdf_file.create_dataset(name, (n,), dtype=dt)`: a fresh
variable-length-string dataset with `n` unwritten cells. -/
def H5File.createStrDataset (f : H5File) (name : String) (n : Nat) : H5File :=
  { f with entries := f.entries ++ [(name, .strDataset n (List.replicate n none))] }

/-- Look an entry up by name, as `hdf_file[name]` does. -/
def H5File.lookup (f : H5File) (name : String) : Option H5Entry :=
  (f.entries.find? (fun e => e.1 = name)).map (·.2)

/-- `hdf_file[ds].attrs[a] = v`: raises `KeyError` when no entry named `ds`
exists, otherwise records the attribute. -/
def H5File.setAttr (f : H5File) (ds a : String) : Except H5Err H5File :=
  match f.lookup ds with
  | none => .error (.keyError ds)
  | some _ => .ok { f with attrs := f.attrs ++ [(ds, a)] }

/-- Replace the row count of the named numeric dataset (helper for the
write loops; the name is present whenever it is called with `first = false`). -/
def H5File.setRows (f : H5File) (name : String) (rows : Nat) : H5File :=
  { f with entries := f.entries.map (fun e =>
      if e.1 = name then (e.1, .arrDataset rows) else e) }

/-- Current row count of the named numeric dataset, `0` if absent. -/
def H5File.rowsOf (f : H5File) (name : String) : Nat :=
  match f.lookup name with
  | some (.arrDataset r) => r
  | _ => 0

/-- The `first = false` iterations of a write loop (e.g. lines 147-150):
each one resizes the named dataset by the incoming volume's row count. -/
def writeLoopAppendSteps (f : H5File) (name : String) (idxs : List Nat)
    (rowsOf : Nat → Nat) : H5File :=
  idxs.foldl (fun f idx => f.setRows name (f.rowsOf name + rowsOf idx)) f

/-- One write loop of `convert_raw_data_to_hdf5` at the file level
(e.g. lines 128-150): on the first index (`first = True`) create the
dataset with that volume's rows, on every later index resize by the
incoming row count.  When `idxs` is empty, no dataset of this name is ever
created. -/
def writeLoopFile (f : H5File) (name : String) (idxs : List Nat)
    (rowsOf : Nat → Nat) : H5File :=
  match idxs with
  | [] => f
  | idx :: rest =>
    writeLoopAppendSteps
      { f with entries := f.entries ++ [(name, .arrDataset (rowsOf idx))] }
      name rest rowsOf

/-- The manifest fields used by `convert_raw_data_to_hdf5`
(`json_data["licence"]` — sic — and friends). -/
structure Manifest where
  licence : String
  name : String
  description : String
  reference : String
  release : String
  numTraining : Nat
deriving DecidableEq, Repr

/-- `convert_raw_data_to_hdf5` (script lines 98-237), with the per-sample
Nifti loads abstracted into the leading-row counts `imgRows`/`mskRows` of
each transformed volume.  The five metadata datasets are created, after
which the Python statements `license = json_data["licence"]` etc. merely
rebind local variables — they do not write into the datasets, so the
bindings below are unused.  Each `hdf_file[...].attrs[...] = ...` raises
`KeyError` if the dataset was never created (it is not, when the split
list driving its loop is empty), which aborts the run. -/
def convert_raw_data_to_hdf5 (trainIdx validateIdx : List Nat)
    (json_data : Manifest) (imgRows mskRows : Nat → Nat) :
    Except H5Err H5File :=
  let hdf_file : H5File := ⟨[], []⟩
  let hdf_file := hdf_file.createStrDataset "license" 100
  let _license := json_data.licence
  let hdf_file := hdf_file.createStrDataset "name" 100
  let _dataset_name := json_data.name
  let hdf_file := hdf_file.createStrDataset "description" 200
  let _description := json_data.description
  let hdf_file := hdf_file.createStrDataset "reference" 100
  let _reference := json_data.reference
  let hdf_file := hdf_file.createStrDataset "release" 50
  let _release := json_data.release
  let hdf_file := writeLoopFile hdf_file "imgs_train" trainIdx imgRows
  (hdf_file.setAttr "imgs_train" "modalities").bind fun hdf_file =>
  let hdf_file := writeLoopFile hdf_file "imgs_test" validateIdx imgRows
  (hdf_file.setAttr "imgs_test" "modalities").bind fun hdf_file =>
  let hdf_file := writeLoopFile hdf_file "msks_train" trainIdx mskRows
  let hdf_file := writeLoopFile hdf_file "msks_test" validateIdx mskRows
  .ok hdf_file

/-! ## Intensity normalization (`normalize_img`, script lines 81-95)

`for channel in range(img.shape[3]): img[...,channel] =
(img[...,channel] - np.mean(img[...,channel])) / np.std(img[...,channel])`.

A channel is the list of its voxel values; `np.mean` is sum over count and
`np.std` (population, `ddof = 0`) is the square root of the mean squared
deviation.  Each loop iteration reads only the channel it overwrites, so
the in-place loop is a map over the channels.  Floats are idealized as
reals. -/

/-- `np.mean` of a channel. -/
noncomputable def chanMean (l : List ℝ) : ℝ := l.sum / l.length

/-- `np.std` of a channel (population standard deviation). -/
noncomputable def chanStd (l : List ℝ) : ℝ :=
  Real.sqrt (chanMean (l.map fun x => (x - chanMean l) ^ 2))

/-- One iteration of the `normalize_img` loop on its channel. -/
noncomputable def normalizeChannel (l : List ℝ) : List ℝ :=
  l.map fun x => (x - chanMean l) / chanStd l

/-- `normalize_img`: every channel is normalized independently. -/
noncomputable def normalize_img (img : List (List ℝ)) : List (List ℝ) :=
  img.map normalizeChannel

/-! ## The `__main__` driver (script lines 239-305)

`os.makedirs` and the existing-output removal come first; then the script
opens `dataset.json` inside `try: ... except IOError:` — the handler only
prints a message, so on a missing manifest execution falls through to
`print("Dataset name = ", experiment_data["name"])`, where the never-bound
name `experiment_data` raises `NameError` and the process dies non-zero.
The manifest read is abstracted as an `Option Manifest` (the filesystem),
and the console and filesystem side effects as an event trace. -/

/-- Observable steps of the driver, in program order. -/
inductive MainEvent where
  | createdSaveDir
  | removedExistingFile
  | printedManifestMissing
  | reachedDatasetInfoPrint
  | printedDatasetInfo
  | seededRandom
deriving DecidableEq, Repr

/-- Ways the driver's process can die. -/
inductive PyError where
  | nameErrorExperimentData
  | h5 (e : H5Err)
deriving DecidableEq, Repr

/-- The `__main__` block: directory setup, manifest read, info prints,
split, and the call to `convert_raw_data_to_hdf5`.  `manifest?` is the
result of reading `data_path/dataset.json` (`none` = absent/unreadable);
`existingOutput` is whether a file already sits at the output path. -/
def mainScript (manifest? : Option Manifest) (existingOutput : Bool)
    (draws : Nat → Rat) (split : Rat) (imgRows mskRows : Nat → Nat) :
    List MainEvent × Except PyError H5File :=
  let ev0 := [MainEvent.createdSaveDir] ++
    (if existingOutput then [MainEvent.removedExistingFile] else [])
  match manifest? with
  | none =>
    -- `except IOError:` prints and continues; the next statement reads the
    -- undefined `experiment_data` and raises `NameError`.
    (ev0 ++ [MainEvent.printedManifestMissing, MainEvent.reachedDatasetInfoPrint],
      .error .nameErrorExperimentData)
  | some experiment_data =>
    let numFiles := experiment_data.numTraining
    (ev0 ++ [MainEvent.reachedDatasetInfoPrint, MainEvent.printedDatasetInfo,
        MainEvent.seededRandom],
      (convert_raw_data_to_hdf5 (trainList numFiles draws split)
        (validateList numFiles draws split) experiment_data
        imgRows mskRows).mapError .h5)

/-! # Theorems -/

/-- C1: for every positive `numTraining` and split ratio in `(0,1)` (and any
uniform draws the seeded PRNG produces), the Splitter's train and validate
index lists cover exactly `[0, numTraining)` and are disjoint. -/
theorem splitter_partition (numTraining : Nat) (draws : Nat → Rat)
    (split : Rat) (hn : 0 < numTraining) (h0 : 0 < split) (h1 : split < 1) :
    (∀ i, (i ∈ trainList numTraining draws split ∨
           i ∈ validateList numTraining draws split) ↔ i < numTraining) ∧
    (∀ i, ¬ (i ∈ trainList numTraining draws split ∧
             i ∈ validateList numTraining draws split)) := by
  constructor
  · intro i
    simp only [trainList, validateList, List.mem_filter, List.mem_range,
      decide_eq_true_eq]
    rcases lt_or_le (draws i) split with h | h
    · constructor
      · rintro (⟨hi, _⟩ | ⟨hi, _⟩) <;> exact hi
      · intro hi; exact Or.inl ⟨hi, h⟩
    · constructor
      · rintro (⟨hi, _⟩ | ⟨hi, _⟩) <;> exact hi
      · intro hi; exact Or.inr ⟨hi, h⟩
  · intro i
    simp only [trainList, validateList, List.mem_filter, List.mem_range,
      decide_eq_true_eq]
    rintro ⟨⟨_, hlt⟩, ⟨_, hle⟩⟩
    exact absurd hlt (not_lt.mpr hle)

/-- Witness for C1 at `numTraining = 3`, `split = 1/2`, constant draws
`1/4`. -/
theorem splitter_partition_witness :
    (0 < 3 ∧ (0 : Rat) < 1/2 ∧ (1 : Rat)/2 < 1) ∧
    ((∀ i, (i ∈ trainList 3 (fun _ => 1/4) (1/2) ∨
            i ∈ validateList 3 (fun _ => 1/4) (1/2)) ↔ i < 3) ∧
     (∀ i, ¬ (i ∈ trainList 3 (fun _ => 1/4) (1/2) ∧
              i ∈ validateList 3 (fun _ => 1/4) (1/2)))) :=
  ⟨⟨by decide, by norm_num, by norm_num⟩,
    splitter_partition 3 (fun _ => 1/4) (1/2) (by decide) (by norm_num)
      (by norm_num)⟩

/-- C5: after `msk[msk > 1] = 1`, every voxel is exactly `0` or `1`; a voxel
is `1` iff its original value was `≥ 1`; values above `1` collapse to `1`
and values `0` or `1` pass through unchanged. -/
theorem mask_binarization_spec (m : Arr3 Nat) (i j k : Nat) :
    ((binarizeMask m).dat i j k = 0 ∨ (binarizeMask m).dat i j k = 1) ∧
    ((binarizeMask m).dat i j k = 1 ↔ 1 ≤ m.dat i j k) ∧
    (1 < m.dat i j k → (binarizeMask m).dat i j k = 1) ∧
    (m.dat i j k ≤ 1 → (binarizeMask m).dat i j k = m.dat i j k) := by
  simp only [binarizeMask, binarizeVoxel]
  by_cases h : 1 < m.dat i j k
  · rw [if_pos h]
    refine ⟨Or.inr rfl, ?_, fun _ => rfl, ?_⟩ <;> omega
  · rw [if_neg h]
    refine ⟨?_, ?_, fun hc => absurd hc h, fun _ => rfl⟩ <;> omega

/-- Witness for C5: binarizing voxel values `5`, `1` and `0`. -/
theorem mask_binarization_spec_witness :
    (binarizeMask ⟨1, 1, 1, fun _ _ _ => 5⟩).dat 0 0 0 = 1 ∧
    (binarizeMask ⟨1, 1, 1, fun _ _ _ => 1⟩).dat 0 0 0 = 1 ∧
    (binarizeMask ⟨1, 1, 1, fun _ _ _ => 0⟩).dat 0 0 0 = 0 :=
  ⟨(mask_binarization_spec ⟨1, 1, 1, fun _ _ _ => 5⟩ 0 0 0).2.2.1 (by decide),
   (mask_binarization_spec ⟨1, 1, 1, fun _ _ _ => 1⟩ 0 0 0).2.2.2 (by decide),
   (mask_binarization_spec ⟨1, 1, 1, fun _ _ _ => 0⟩ 0 0 0).2.2.2 (by decide)⟩

/-- Along one axis at least as large as the crop size, the window has length
exactly the crop size and the trimmed amounts on the two sides differ by at
most 1. -/
lemma cropLen_of_le (s x : Nat) (h : s ≤ x) :
    cropLen s x = s ∧
    cropStart s x ≤ (x - cropEnd s x) + 1 ∧
    x - cropEnd s x ≤ cropStart s x + 1 := by
  unfold cropLen cropEnd cropStart
  omega

/-- Along one axis smaller than the crop size, the window is the whole
axis. -/
lemma cropLen_of_lt (s x : Nat) (h : x < s) :
    cropLen s x = x ∧ cropStart s x = 0 := by
  unfold cropLen cropEnd cropStart
  omega

/-- The crop window never exceeds the crop size. -/
lemma cropLen_le (s x : Nat) : cropLen s x ≤ s := by
  unfold cropLen cropEnd cropStart
  omega

/-- A crop window start is zero whenever the axis is no larger than the crop
size. -/
lemma cropStart_of_le (s x : Nat) (h : x ≤ s) : cropStart s x = 0 := by
  unfold cropStart
  omega

/-- Cropping an axis no larger than the crop size keeps the whole axis. -/
lemma cropLen_self_of_le (s x : Nat) (h : x ≤ s) : cropLen s x = x := by
  unfold cropLen cropEnd cropStart
  omega

/-- C4: per spatial axis, `crop_center` outputs exactly the crop size when
the axis is at least that large (and the left/right trimmed amounts differ
by at most 1), outputs the whole axis when it is smaller (no padding), and
leaves the channel axis untouched (same channel count, channel index passed
straight through). -/
theorem crop_center_spec (img : Arr4 α) (cropx cropy cropz : Nat) :
    (cropx ≤ img.nx →
      (crop_center4 img cropx cropy cropz).nx = cropx ∧
      cropStart cropx img.nx ≤ (img.nx - cropEnd cropx img.nx) + 1 ∧
      img.nx - cropEnd cropx img.nx ≤ cropStart cropx img.nx + 1) ∧
    (img.nx < cropx → (crop_center4 img cropx cropy cropz).nx = img.nx) ∧
    (cropy ≤ img.ny →
      (crop_center4 img cropx cropy cropz).ny = cropy ∧
      cropStart cropy img.ny ≤ (img.ny - cropEnd cropy img.ny) + 1 ∧
      img.ny - cropEnd cropy img.ny ≤ cropStart cropy img.ny + 1) ∧
    (img.ny < cropy → (crop_center4 img cropx cropy cropz).ny = img.ny) ∧
    (cropz ≤ img.nz →
      (crop_center4 img cropx cropy cropz).nz = cropz ∧
      cropStart cropz img.nz ≤ (img.nz - cropEnd cropz img.nz) + 1 ∧
      img.nz - cropEnd cropz img.nz ≤ cropStart cropz img.nz + 1) ∧
    (img.nz < cropz → (crop_center4 img cropx cropy cropz).nz = img.nz) ∧
    (crop_center4 img cropx cropy cropz).nc = img.nc ∧
    (∀ i j k l, (crop_center4 img cropx cropy cropz).dat i j k l =
      img.dat (cropStart cropx img.nx + i) (cropStart cropy img.ny + j)
        (cropStart cropz img.nz + k) l) := by
  refine ⟨fun h => ⟨(cropLen_of_le _ _ h).1, (cropLen_of_le _ _ h).2⟩,
    fun h => (cropLen_of_lt _ _ h).1,
    fun h => ⟨(cropLen_of_le _ _ h).1, (cropLen_of_le _ _ h).2⟩,
    fun h => (cropLen_of_lt _ _ h).1,
    fun h => ⟨(cropLen_of_le _ _ h).1, (cropLen_of_le _ _ h).2⟩,
    fun h => (cropLen_of_lt _ _ h).1,
    rfl, fun i j k l => rfl⟩

/-- Witness for C4: a `5 × 2 × 4 × 7` volume cropped to `3 × 3 × 4`:
the X axis (5 ≥ 3) comes out at 3, the Y axis (2 < 3) stays 2, the Z axis
(4 ≥ 4) comes out at 4, and the channel axis stays 7. -/
theorem crop_center_spec_witness :
    (crop_center4 (⟨5, 2, 4, 7, fun _ _ _ _ => 0⟩ : Arr4 Nat) 3 3 4).nx = 3 ∧
    (crop_center4 (⟨5, 2, 4, 7, fun _ _ _ _ => 0⟩ : Arr4 Nat) 3 3 4).ny = 2 ∧
    (crop_center4 (⟨5, 2, 4, 7, fun _ _ _ _ => 0⟩ : Arr4 Nat) 3 3 4).nz = 4 ∧
    (crop_center4 (⟨5, 2, 4, 7, fun _ _ _ _ => 0⟩ : Arr4 Nat) 3 3 4).nc = 7 :=
  ⟨((crop_center_spec ⟨5, 2, 4, 7, fun _ _ _ _ => 0⟩ 3 3 4).1 (by decide)).1,
   (crop_center_spec ⟨5, 2, 4, 7, fun _ _ _ _ => 0⟩ 3 3 4).2.2.2.1 (by decide),
   ((crop_center_spec ⟨5, 2, 4, 7, fun _ _ _ _ => 0⟩ 3 3 4).2.2.2.2.1
     (by decide)).1,
   (crop_center_spec ⟨5, 2, 4, 7, fun _ _ _ _ => 0⟩ 3 3 4).2.2.2.2.2.2.1⟩

/-- C9: `crop_center` is idempotent — cropping an already-cropped volume
with the same sizes changes nothing, because every output axis length is at
most the requested crop size, so the second crop keeps each whole axis. -/
theorem crop_center_idempotent (img : Arr4 α) (cropx cropy cropz : Nat) :
    crop_center4 (crop_center4 img cropx cropy cropz) cropx cropy cropz =
      crop_center4 img cropx cropy cropz := by
  cases img with
  | mk nx ny nz nc dat =>
    simp only [crop_center4]
    congr 1
    · exact cropLen_self_of_le _ _ (cropLen_le cropx nx)
    · exact cropLen_self_of_le _ _ (cropLen_le cropy ny)
    · exact cropLen_self_of_le _ _ (cropLen_le cropz nz)
    · funext i j k l
      rw [cropStart_of_le _ _ (cropLen_le cropx nx),
        cropStart_of_le _ _ (cropLen_le cropy ny),
        cropStart_of_le _ _ (cropLen_le cropz nz)]
      simp only [Nat.zero_add]

/-- An appending write grows the leading dimension by exactly the incoming
row count. -/
lemma subsequentWrite_size [Inhabited α] (d : HDataset α) (img : List α) :
    (subsequentWrite d img).size = d.size + img.length := rfl

/-- An appending write leaves every previously existing row unchanged. -/
lemma subsequentWrite_dat_lt [Inhabited α] (d : HDataset α) (img : List α)
    (i : Nat) (hi : i < d.size) :
    (subsequentWrite d img).dat i = d.dat i := by
  simp only [subsequentWrite, HDataset.writeRange, HDataset.resize]
  rw [if_neg]
  omega

/-- An appending write stores the incoming rows in the newly extended index
range. -/
lemma subsequentWrite_dat_new [Inhabited α] (d : HDataset α) (img : List α)
    (j : Nat) (hj : j < img.length) :
    (subsequentWrite d img).dat (d.size + j) = img.getD j default := by
  simp only [subsequentWrite, HDataset.writeRange, HDataset.resize]
  rw [if_pos (by omega)]
  congr 1
  omega

/-- Rows below the current size survive any further sequence of appending
writes. -/
lemma foldl_subsequentWrite_dat [Inhabited α] (rest : List (List α))
    (d : HDataset α) (i : Nat) (hi : i < d.size) :
    (List.foldl subsequentWrite d rest).dat i = d.dat i := by
  induction rest generalizing d with
  | nil => rfl
  | cons img rest ih =>
    rw [List.foldl_cons,
      ih (subsequentWrite d img) (by rw [subsequentWrite_size]; omega),
      subsequentWrite_dat_lt d img i hi]

/-- C8: every write after the first extends the leading dimension by exactly
the incoming row count, writes the new rows only into the newly extended
index range, and every previously written row keeps its value for the rest
of the run (any further sequence of writes). -/
theorem growable_dataset_append_spec [Inhabited α] (d : HDataset α)
    (img : List α) (rest : List (List α)) (i j : Nat)
    (hi : i < d.size) (hj : j < img.length) :
    (subsequentWrite d img).size = d.size + img.length ∧
    (subsequentWrite d img).dat (d.size + j) = img.getD j default ∧
    (subsequentWrite d img).dat i = d.dat i ∧
    (List.foldl subsequentWrite d (img :: rest)).dat i = d.dat i :=
  ⟨subsequentWrite_size d img, subsequentWrite_dat_new d img j hj,
   subsequentWrite_dat_lt d img i hi, foldl_subsequentWrite_dat _ d i hi⟩

/-- Witness for C8: a one-row dataset holding `5`, an incoming volume `[7]`,
one later write `[9]`, checked at row `0`. -/
theorem growable_dataset_append_spec_witness :
    (0 < 1 ∧ 0 < 1) ∧
    ((subsequentWrite (⟨1, fun _ => 5⟩ : HDataset Nat) [7]).size = 1 + 1 ∧
     (subsequentWrite (⟨1, fun _ => 5⟩ : HDataset Nat) [7]).dat (1 + 0) =
       [7].getD 0 default ∧
     (subsequentWrite (⟨1, fun _ => 5⟩ : HDataset Nat) [7]).dat 0 =
       (⟨1, fun _ => 5⟩ : HDataset Nat).dat 0 ∧
     (List.foldl subsequentWrite (⟨1, fun _ => 5⟩ : HDataset Nat)
       ([7] :: [[9]])).dat 0 = (⟨1, fun _ => 5⟩ : HDataset Nat).dat 0) :=
  ⟨⟨by decide, by decide⟩,
   growable_dataset_append_spec ⟨1, fun _ => 5⟩ [7] [[9]] 0 0 (by decide)
     (by decide)⟩

/-- Reading a list back cell by cell with `getD` reproduces it. -/
lemma range_map_getD [Inhabited α] (l : List α) :
    (List.range l.length).map (fun j => l.getD j default) = l := by
  apply List.ext_getElem
  · simp
  · intro i h1 h2
    simp only [List.getElem_map, List.getElem_range]
    exact List.getD_eq_getElem l default h2

/-- The stored rows after an appending write are the old rows followed by
the incoming rows. -/
lemma toList_subsequentWrite [Inhabited α] (d : HDataset α) (img : List α) :
    (subsequentWrite d img).toList = d.toList ++ img := by
  unfold HDataset.toList
  rw [subsequentWrite_size, List.range_add, List.map_append, List.map_map]
  congr 1
  · exact List.map_congr_left fun i hi =>
      subsequentWrite_dat_lt d img i (List.mem_range.mp hi)
  · rw [show ((subsequentWrite d img).dat ∘ fun j => d.size + j) =
        fun j => (subsequentWrite d img).dat (d.size + j) from rfl]
    calc (List.range img.length).map
          (fun j => (subsequentWrite d img).dat (d.size + j))
        = (List.range img.length).map (fun j => img.getD j default) :=
          List.map_congr_left fun j hj =>
            subsequentWrite_dat_new d img j (List.mem_range.mp hj)
      _ = img := range_map_getD img

/-- The stored rows after a sequence of appending writes are the starting
rows followed by the incoming volumes in write order. -/
lemma foldl_subsequentWrite_toList [Inhabited α] (xs : List (List α))
    (d : HDataset α) :
    (List.foldl subsequentWrite d xs).toList = d.toList ++ xs.flatten := by
  induction xs generalizing d with
  | nil => simp
  | cons x xs ih =>
    rw [List.foldl_cons, ih, toList_subsequentWrite, List.flatten_cons,
      List.append_assoc]

/-- The rows a whole write loop stores are exactly the concatenation of the
per-index volumes, in the order of the index list. -/
lemma toList_writeLoopDS [Inhabited α] (idxs : List Nat)
    (vol : Nat → List α) :
    (writeLoopDS idxs vol).toList = (idxs.map vol).flatten := by
  unfold writeLoopDS
  rw [← List.foldl_map, foldl_subsequentWrite_toList]
  rfl

/-- C10: both splitter outputs are strictly increasing (boolean-mask
indexing of `np.arange` keeps index order), and consequently each write
loop appends its samples in ascending manifest index order: the stored
rows are the per-index volumes concatenated along the increasing index
list. -/
theorem splitter_sorted_write_order [Inhabited α] (numFiles : Nat)
    (draws : Nat → Rat) (split : Rat) (vol : Nat → List α) :
    List.Sorted (· < ·) (trainList numFiles draws split) ∧
    List.Sorted (· < ·) (validateList numFiles draws split) ∧
    (writeLoopDS (trainList numFiles draws split) vol).toList =
      ((trainList numFiles draws split).map vol).flatten ∧
    (writeLoopDS (validateList numFiles draws split) vol).toList =
      ((validateList numFiles draws split).map vol).flatten :=
  ⟨List.Pairwise.sublist (List.filter_sublist _)
      (List.pairwise_lt_range numFiles),
   List.Pairwise.sublist (List.filter_sublist _)
      (List.pairwise_lt_range numFiles),
   toList_writeLoopDS _ vol, toList_writeLoopDS _ vol⟩


/-- Changing a dataset's row count never changes the entry names. -/
lemma entryNames_setRows (f : H5File) (nm : String) (r : Nat) :
    (f.setRows nm r).entries.map (·.1) = f.entries.map (·.1) := by
  simp only [H5File.setRows, List.map_map]
  exact List.map_congr_left fun e _ => by by_cases h : e.1 = nm <;> simp [h]

/-- The appending iterations of a write loop never change the entry names. -/
lemma entryNames_writeLoopAppendSteps (idxs : List Nat) (f : H5File)
    (nm : String) (r : Nat → Nat) :
    (writeLoopAppendSteps f nm idxs r).entries.map (·.1) =
      f.entries.map (·.1) := by
  induction idxs generalizing f with
  | nil => rfl
  | cons i rest ih =>
    show (writeLoopAppendSteps (f.setRows nm (f.rowsOf nm + r i)) nm rest
      r).entries.map (·.1) = f.entries.map (·.1)
    rw [ih, entryNames_setRows]

/-- A write loop over a nonempty index list adds exactly one entry, named
after its dataset. -/
lemma entryNames_writeLoopFile_cons (f : H5File) (nm : String) (i : Nat)
    (rest : List Nat) (r : Nat → Nat) :
    (writeLoopFile f nm (i :: rest) r).entries.map (·.1) =
      f.entries.map (·.1) ++ [nm] := by
  rw [writeLoopFile, entryNames_writeLoopAppendSteps]
  simp

/-- A name carried by no entry looks up to nothing. -/
lemma lookup_eq_none (f : H5File) (x : String)
    (h : ∀ e ∈ f.entries, e.1 ≠ x) : f.lookup x = none := by
  unfold H5File.lookup
  rw [List.find?_eq_none.mpr fun e he => by simp [h e he]]
  rfl

/-- A name carried by some entry looks up to something. -/
lemma lookup_isSome_of_mem (f : H5File) (x : String)
    (h : x ∈ f.entries.map (·.1)) : (f.lookup x).isSome := by
  unfold H5File.lookup
  obtain ⟨e, he, hex⟩ := List.mem_map.mp h
  have hf : (f.entries.find? (fun e => e.1 = x)).isSome :=
    List.find?_isSome.mpr ⟨e, he, by simp [hex]⟩
  obtain ⟨v, hv⟩ := Option.isSome_iff_exists.mp hf
  rw [hv]
  rfl

/-- `hdf_file[ds].attrs[...] = ...` raises `KeyError` when `ds` is absent. -/
lemma setAttr_of_none (f : H5File) (ds a : String)
    (h : f.lookup ds = none) : f.setAttr ds a = .error (.keyError ds) := by
  unfold H5File.setAttr
  rw [h]

/-- `hdf_file[ds].attrs[...] = ...` succeeds and only records the attribute
when `ds` is present. -/
lemma setAttr_of_isSome (f : H5File) (ds a : String)
    (h : (f.lookup ds).isSome) :
    f.setAttr ds a = .ok { f with attrs := f.attrs ++ [(ds, a)] } := by
  unfold H5File.setAttr
  obtain ⟨v, hv⟩ := Option.isSome_iff_exists.mp h
  rw [hv]

/-- An attribute write to a missing dataset aborts whatever follows it. -/
lemma bind_setAttr_missing (f : H5File) (ds a : String)
    (k : H5File → Except H5Err H5File) (h : f.lookup ds = none) :
    (f.setAttr ds a).bind k = .error (.keyError ds) := by
  rw [setAttr_of_none f ds a h]
  rfl

/-- An attribute write to a present dataset passes the attribute-extended
file on to the continuation. -/
lemma bind_setAttr_present (f : H5File) (ds a : String)
    (k : H5File → Except H5Err H5File) (h : (f.lookup ds).isSome) :
    (f.setAttr ds a).bind k =
      k (H5File.mk f.entries (f.attrs ++ [(ds, a)])) := by
  rw [setAttr_of_isSome f ds a h]
  rfl

/-- A write loop over an empty index list does nothing. -/
lemma writeLoopFile_nil (f : H5File) (nm : String) (r : Nat → Nat) :
    writeLoopFile f nm [] r = f := rfl

/-- The HDF5 file right after the five metadata `create_dataset` calls
(script lines 110-124): five string-capable entries of capacities 100, 100,
200, 100 and 50, all cells unwritten. -/
def metaFile : H5File :=
  ⟨[("license", .strDataset 100 (List.replicate 100 none)),
    ("name", .strDataset 100 (List.replicate 100 none)),
    ("description", .strDataset 200 (List.replicate 200 none)),
    ("reference", .strDataset 100 (List.replicate 100 none)),
    ("release", .strDataset 50 (List.replicate 50 none))], []⟩

/-- `convert_raw_data_to_hdf5` unfolded past its metadata phase: the local
rebindings of `license` etc. touch nothing, so the file the write loops
start from is exactly `metaFile`. -/
lemma convert_unfold (trainIdx validateIdx : List Nat) (m : Manifest)
    (ir mr : Nat → Nat) :
    convert_raw_data_to_hdf5 trainIdx validateIdx m ir mr =
      ((writeLoopFile metaFile "imgs_train" trainIdx ir).setAttr
          "imgs_train" "modalities").bind fun f7 =>
        ((writeLoopFile f7 "imgs_test" validateIdx ir).setAttr
            "imgs_test" "modalities").bind fun f9 =>
          .ok (writeLoopFile (writeLoopFile f9 "msks_train" trainIdx mr)
            "msks_test" validateIdx mr) := rfl

/-- With a nonempty training list and an empty validation list, the run
dies with `KeyError` at `hdf_file["imgs_test"].attrs[...]` (line 181): the
validation-image dataset was never created. -/
lemma convert_error_when_validate_empty (t : Nat) (ts : List Nat)
    (m : Manifest) (ir mr : Nat → Nat) :
    convert_raw_data_to_hdf5 (t :: ts) [] m ir mr =
      .error (.keyError "imgs_test") := by
  rw [convert_unfold]
  have h6 : ((writeLoopFile metaFile "imgs_train" (t :: ts) ir).lookup
      "imgs_train").isSome := by
    apply lookup_isSome_of_mem
    rw [entryNames_writeLoopFile_cons]
    simp
  rw [bind_setAttr_present _ _ _ _ h6]
  have h8 : (H5File.mk (writeLoopFile metaFile "imgs_train" (t :: ts)
      ir).entries ((writeLoopFile metaFile "imgs_train" (t :: ts) ir).attrs ++
        [("imgs_train", "modalities")])).lookup "imgs_test" = none := by
    apply lookup_eq_none
    intro e he hx
    have hmem : e.1 ∈ (writeLoopFile metaFile "imgs_train" (t :: ts)
        ir).entries.map (·.1) := List.mem_map_of_mem (fun x => x.1) he
    rw [entryNames_writeLoopFile_cons, hx] at hmem
    simp [metaFile] at hmem
  rw [writeLoopFile_nil, bind_setAttr_missing _ _ _ _ h8]

/-- With an empty training list, the run dies with `KeyError` already at
`hdf_file["imgs_train"].attrs[...]` (line 152): the training-image dataset
was never created. -/
lemma convert_error_when_train_empty (validateIdx : List Nat) (m : Manifest)
    (ir mr : Nat → Nat) :
    convert_raw_data_to_hdf5 [] validateIdx m ir mr =
      .error (.keyError "imgs_train") := rfl

/-- A concrete manifest with the metadata fields populated, for evaluating
whole runs. -/
def sampleManifest : Manifest :=
  ⟨"CC-BY-SA 4.0", "BRATS", "Gliomas segmentation tumour and oedema",
    "https://www.med.upenn.edu/sbia/brats2017.html", "2.0 04/05/2018", 2⟩

/-- C2 (code bug): after a completed run on `sampleManifest` (one training
and one validation sample), the five metadata datasets exist — created
before any image or mask write — but every one of their cells is still
unwritten: the statements `license = json_data["licence"]` etc. rebind
Python locals instead of writing the manifest values into the datasets, so
the container ends the run with five empty metadata entries, not five
populated ones. -/
theorem metadata_entries_not_populated :
    (convert_raw_data_to_hdf5 [0] [1] sampleManifest (fun _ => 1)
        (fun _ => 1)).map
      (fun f => (f.lookup "license", f.lookup "name", f.lookup "description",
        f.lookup "reference", f.lookup "release")) =
    .ok (some (.strDataset 100 (List.replicate 100 none)),
      some (.strDataset 100 (List.replicate 100 none)),
      some (.strDataset 200 (List.replicate 200 none)),
      some (.strDataset 100 (List.replicate 100 none)),
      some (.strDataset 50 (List.replicate 50 none))) := rfl

/-- C3 counterexample: with one sample and split ratio `1.0` (draw `0`),
the validation list is empty and the pipeline does not complete without
error — it aborts with `KeyError` on the never-created `imgs_test`
dataset, so no empty validation datasets exist in the output. -/
theorem split_one_counterexample :
    trainList 1 (fun _ => 0) 1 = [0] ∧
    validateList 1 (fun _ => 0) 1 = [] ∧
    convert_raw_data_to_hdf5 (trainList 1 (fun _ => 0) 1)
        (validateList 1 (fun _ => 0) 1) sampleManifest (fun _ => 1)
        (fun _ => 1) =
      .error (.keyError "imgs_test") := by
  refine ⟨by decide, by decide, ?_⟩
  rw [show trainList 1 (fun _ => 0) 1 = [0] from by decide,
    show validateList 1 (fun _ => 0) 1 = [] from by decide]
  exact convert_error_when_validate_empty 0 [] _ _ _

/-- C3 amended: with all uniform draws in `[0,1)`, split ratio `1.0` makes
the validation list empty and the run aborts with `KeyError` at the
`imgs_test` attribute write (the validation datasets are never created);
symmetrically, split ratio `0.0` makes the training list empty and the run
aborts with `KeyError` at the `imgs_train` attribute write. -/
theorem split_extremes_abort (n : Nat) (draws : Nat → Rat) (m : Manifest)
    (ir mr : Nat → Nat) (hn : 0 < n)
    (hd : ∀ i, 0 ≤ draws i ∧ draws i < 1) :
    validateList n draws 1 = [] ∧
    convert_raw_data_to_hdf5 (trainList n draws 1) (validateList n draws 1)
        m ir mr = .error (.keyError "imgs_test") ∧
    trainList n draws 0 = [] ∧
    convert_raw_data_to_hdf5 (trainList n draws 0) (validateList n draws 0)
        m ir mr = .error (.keyError "imgs_train") := by
  have hval : validateList n draws 1 = [] := by
    apply List.filter_eq_nil_iff.mpr
    intro i _
    simp [not_le, (hd i).2]
  have htr : trainList n draws 1 ≠ [] := by
    apply List.ne_nil_of_mem (a := 0)
    simp only [trainList, List.mem_filter, List.mem_range,
      decide_eq_true_eq]
    exact ⟨hn, (hd 0).2⟩
  have htr0 : trainList n draws 0 = [] := by
    apply List.filter_eq_nil_iff.mpr
    intro i _
    simp [not_lt, (hd i).1]
  obtain ⟨t, ts, hts⟩ := List.exists_cons_of_ne_nil htr
  refine ⟨hval, ?_, htr0, ?_⟩
  · rw [hval, hts]
    exact convert_error_when_validate_empty t ts m ir mr
  · rw [htr0]
    exact convert_error_when_train_empty _ m ir mr

/-- Witness for the amended C3 at one sample with constant draw `1/2`. -/
theorem split_extremes_abort_witness :
    (0 < 1 ∧ ∀ i : Nat, (0 : Rat) ≤ (fun _ : Nat => (0 : Rat)) i ∧
      (fun _ : Nat => (0 : Rat)) i < 1) ∧
    (validateList 1 (fun _ => 0) 1 = [] ∧
     convert_raw_data_to_hdf5 (trainList 1 (fun _ => 0) 1)
        (validateList 1 (fun _ => 0) 1) sampleManifest (fun _ => 1)
        (fun _ => 1) = .error (.keyError "imgs_test") ∧
     trainList 1 (fun _ => 0) 0 = [] ∧
     convert_raw_data_to_hdf5 (trainList 1 (fun _ => 0) 0)
        (validateList 1 (fun _ => 0) 0) sampleManifest (fun _ => 1)
        (fun _ => 1) = .error (.keyError "imgs_train")) :=
  ⟨⟨by decide, fun i => ⟨by norm_num, by norm_num⟩⟩,
   split_extremes_abort 1 (fun _ => 0) sampleManifest (fun _ => 1)
     (fun _ => 1) (by decide) (fun i => ⟨by norm_num, by norm_num⟩)⟩

/-- C7 (code bug): when `dataset.json` is absent or unreadable, the run does
exit non-zero before any sample processing or container writing, but not at
the failed read: the `except IOError` handler prints its message and
execution continues to the dataset-info print, which dies with a `NameError`
on the never-bound `experiment_data` — the script does continue past the
failed read instead of aborting there. -/
theorem manifest_read_failure_continues (existingOutput : Bool)
    (draws : Nat → Rat) (split : Rat) (ir mr : Nat → Nat) :
    (mainScript none existingOutput draws split ir mr).2 =
      .error .nameErrorExperimentData ∧
    MainEvent.printedManifestMissing ∈
      (mainScript none existingOutput draws split ir mr).1 ∧
    MainEvent.reachedDatasetInfoPrint ∈
      (mainScript none existingOutput draws split ir mr).1 := by
  refine ⟨rfl, ?_, ?_⟩ <;> simp [mainScript]

/-- Sum of an affine map over a list. -/
lemma sum_map_affine (l : List ℝ) (a b : ℝ) :
    (l.map fun x => a * x + b).sum = a * l.sum + l.length * b := by
  induction l with
  | nil => simp
  | cons x xs ih =>
    simp only [List.map_cons, List.sum_cons, ih, List.length_cons]
    push_cast
    ring

/-- Mean of an affine map over a nonempty list. -/
lemma chanMean_affine_map (l : List ℝ) (a b : ℝ)
    (h : (l.length : ℝ) ≠ 0) :
    chanMean (l.map fun x => a * x + b) = a * chanMean l + b := by
  unfold chanMean
  rw [sum_map_affine, List.length_map]
  field_simp
  ring

/-- The mean of a list of nonnegative values is nonnegative. -/
lemma chanMean_nonneg (l : List ℝ) (h : ∀ x ∈ l, 0 ≤ x) :
    0 ≤ chanMean l :=
  div_nonneg (List.sum_nonneg h) (Nat.cast_nonneg _)

/-- The normalization of a channel is an affine map of it. -/
lemma normalizeChannel_eq_affine (ch : List ℝ) :
    normalizeChannel ch =
      ch.map fun x =>
        (chanStd ch)⁻¹ * x + (-(chanMean ch * (chanStd ch)⁻¹)) := by
  unfold normalizeChannel
  exact List.map_congr_left fun x _ => by ring

/-- C6: `normalize_img` replaces channel `c` by its own normalization only
(independence from the other channels), and on a non-degenerate channel
(`np.std` nonzero) the normalized channel has mean exactly 0 and standard
deviation exactly 1 (floats idealized as reals). -/
theorem normalize_img_spec (img : List (List ℝ)) (c : Nat) (ch : List ℝ)
    (hc : img[c]? = some ch) (hstd : chanStd ch ≠ 0) :
    (normalize_img img)[c]? = some (normalizeChannel ch) ∧
    chanMean (normalizeChannel ch) = 0 ∧
    chanStd (normalizeChannel ch) = 1 := by
  have hn : ch ≠ [] := by
    rintro rfl
    apply hstd
    simp [chanStd, chanMean]
  have hnn : (ch.length : ℝ) ≠ 0 := by
    have := List.length_pos.mpr hn
    positivity
  have hmean : chanMean (normalizeChannel ch) = 0 := by
    rw [normalizeChannel_eq_affine, chanMean_affine_map _ _ _ hnn]
    ring
  have hV0 : 0 ≤ chanMean (ch.map fun x => (x - chanMean ch) ^ 2) :=
    chanMean_nonneg _ fun x hx => by
      obtain ⟨y, _, rfl⟩ := List.mem_map.mp hx
      positivity
  have hVne : chanMean (ch.map fun x => (x - chanMean ch) ^ 2) ≠ 0 := by
    intro h0
    apply hstd
    show Real.sqrt _ = 0
    rw [h0, Real.sqrt_zero]
  have hsq : (chanStd ch) ^ 2 =
      chanMean (ch.map fun x => (x - chanMean ch) ^ 2) :=
    Real.sq_sqrt hV0
  refine ⟨?_, hmean, ?_⟩
  · unfold normalize_img
    rw [List.getElem?_map, hc]
    rfl
  · show Real.sqrt (chanMean ((normalizeChannel ch).map
      fun x => (x - chanMean (normalizeChannel ch)) ^ 2)) = 1
    rw [hmean]
    simp only [sub_zero]
    have hlist : (normalizeChannel ch).map (fun x => x ^ 2) =
        (ch.map fun x => (x - chanMean ch) ^ 2).map
          (fun y => ((chanStd ch) ^ 2)⁻¹ * y + 0) := by
      unfold normalizeChannel
      rw [List.map_map, List.map_map]
      apply List.map_congr_left
      intro x _
      simp only [Function.comp]
      ring
    rw [hlist, chanMean_affine_map _ _ _ (by rw [List.length_map]; exact hnn),
      hsq, add_zero, inv_mul_cancel₀ hVne, Real.sqrt_one]

/-- The channel `[0, 2]` has standard deviation exactly 1. -/
lemma chanStd_pair : chanStd [(0 : ℝ), 2] = 1 := by
  have hm : chanMean [(0 : ℝ), 2] = 1 := by
    simp [chanMean]
  unfold chanStd
  rw [hm]
  norm_num
  simp [chanMean]

/-- Witness for C6 on the single-channel image `[[0, 2]]`. -/
theorem normalize_img_spec_witness :
    (([[(0 : ℝ), 2]] : List (List ℝ))[0]? = some [0, 2] ∧
      chanStd [(0 : ℝ), 2] ≠ 0) ∧
    ((normalize_img [[(0 : ℝ), 2]])[0]? = some (normalizeChannel [0, 2]) ∧
     chanMean (normalizeChannel [(0 : ℝ), 2]) = 0 ∧
     chanStd (normalizeChannel [(0 : ℝ), 2]) = 1) :=
  ⟨⟨rfl, by rw [chanStd_pair]; norm_num⟩,
   normalize_img_spec [[0, 2]] 0 [0, 2] rfl
     (by rw [chanStd_pair]; norm_num)⟩
